import Mathlib

/-!
# Verification of the terminal settings-resolution engine

A shallow embedding of the profile-resolution, validation, duplication and
copy logic of `CascadiaSettings.cpp` (Windows Terminal settings model), and
proofs of the specification claims about it.

Modelling conventions:
* `winrt` observable vectors are Lean `List`s; `hstring` is `String`.
* GUIDs are `Nat`; `Utils::GuidFromString` is an abstract parameter
  `parseGuid : String → Nat` (it lives outside the reviewed sources).
* `_normalizeCommandLine` depends on OS services (environment expansion,
  `CommandLineToArgvW`, `SearchPathW`, `std::filesystem::canonical`); it is
  treated as an abstract parameter `norm : String → List Char`, producing the
  normalized wide string as a list of code units (`\0` separators included).
* Inherited-setting resolution (`Profile`/`AppearanceConfig` internals are not
  part of the reviewed sources) is modelled from the spec: a setting is either
  explicitly set (`some v`) or absent, in which case the parent-chain resolved
  value (a separate `inherited…` field) is used.  Getters such as
  `Profile::Commandline()` always return the resolved value, so fields that the
  reviewed code only ever reads are stored directly in resolved form.
* C++ exceptions that the reviewed code can raise (`gsl::narrow`) are
  modelled with `Except Unit`.
-/

namespace TerminalSettings

/-- `SettingsLoadWarnings`: tagged enum of load warnings (no payload).
`other n` stands for the remaining tags (e.g. the individual keybinding
warnings forwarded from the action map). -/
inductive SettingsLoadWarning where
  | unknownColorScheme
  | invalidBackgroundImage
  | invalidIcon
  | atLeastOneKeybindingWarning
  | invalidColorSchemeInCmd
  | other (n : Nat)
deriving DecidableEq

/-- `OriginTag` provenance tag on a profile. -/
inductive OriginTag where
  | user
  | inBox
  | generated
  | fragment
  | profilesDefaults
deriving DecidableEq

/-- An appearance configuration (default or unfocused).  `colorSchemeName` and
`backgroundImagePath` are the explicitly-set values (`none` = inherit); the
`inherited…` fields are the values that parent-chain resolution yields when the
explicit value is absent, so the C++ getters correspond to
`explicit.getD inherited`. -/
structure Appearance where
  colorSchemeName : Option String
  inheritedColorSchemeName : String
  backgroundImagePath : Option String
  inheritedBackgroundImagePath : String
deriving DecidableEq

/-- A profile.  `commandline` and `name` are stored in resolved form (the
reviewed code only reads them); `icon` keeps the explicit/inherited split
because `_validateMediaResources` clears the explicit value. -/
structure Profile where
  guid : Nat
  name : String
  hidden : Bool
  origin : OriginTag
  commandline : String
  icon : Option String
  inheritedIcon : String
  defaultAppearance : Appearance
  unfocusedAppearance : Option Appearance
deriving DecidableEq

/-- A command from the global action map's name map, as far as
`_validateColorSchemesInCommands` inspects it: it either has nested commands,
or is a `setColorScheme` action (with its `iterateOn == ColorSchemes` flag and
scheme name), or is anything else. -/
inductive Command where
  | nested (children : List Command)
  | setColorScheme (iterateOnColorSchemes : Bool) (schemeName : String)
  | plain

/-- The settings container (`CascadiaSettings`).  `colorSchemes` holds the keys
of `_globals->ColorSchemes()`; `keybindingsWarnings` is
`_globals->KeybindingsWarnings()`; `commands` holds the values of
`_globals->ActionMap().NameMap()`; `defaultProfile` is
`_globals->DefaultProfile()`.  `commandLinesCache` is `none` until the
`std::call_once` in `_getProfileForCommandLine` has run. -/
structure CascadiaSettings where
  baseLayerProfile : Profile
  allProfiles : List Profile
  activeProfiles : List Profile
  warnings : List SettingsLoadWarning
  loadError : Option Nat
  deserializationErrorMessage : String
  keybindingsWarnings : List SettingsLoadWarning
  colorSchemes : List String
  defaultProfile : Nat
  commands : List Command
  commandLinesCache : Option (List (List Char × Profile))

/-- `NewTerminalArgs`, as read by `GetProfileForArgs`: an optional profile
name/guid string, an optional (signed!) profile index, and a command line. -/
structure NewTerminalArgs where
  profile : String
  profileIndex : Option Int
  commandline : String
deriving DecidableEq

/-- The `L'{'` character compared against `name[0]` in `GetProfileByName`. -/
def openingBrace : Char := Char.ofNat 123

/-- `CascadiaSettings::FindProfile`: first profile in `_allProfiles` whose GUID
matches, else null. -/
def findProfile (s : CascadiaSettings) (g : Nat) : Option Profile :=
  s.allProfiles.find? (fun p => p.guid = g)

/-- `CascadiaSettings::GetProfileByName`: for a non-empty name, first try the
GUID heuristic (38 characters, starting with `{`), looking the parsed GUID up
via `FindProfile`; if that produces nothing, scan `_allProfiles` for the first
exact name match.  `parseGuid` abstracts `Utils::GuidFromString`. -/
def getProfileByName (parseGuid : String → Nat) (s : CascadiaSettings)
    (name : String) : Option Profile :=
  if name = "" then none
  else if name.length = 38 ∧ name.front = openingBrace then
    match findProfile s (parseGuid name) with
    | some p => some p
    | none => s.allProfiles.find? (fun p => p.name = name)
  else s.allProfiles.find? (fun p => p.name = name)

/-- `CascadiaSettings::GetProfileByIndex`:
`index < _activeProfiles.Size() ? _activeProfiles.GetAt(index) : nullptr`. -/
def getProfileByIndex (s : CascadiaSettings) (i : Nat) : Option Profile :=
  s.activeProfiles.get? i

/-- `gsl::narrow<uint32_t>` applied to a signed index: throws
(`Except.error`) exactly when the value does not round-trip through
`uint32_t`, i.e. when it is negative (or ≥ 2^32). -/
def gslNarrowUint32 (i : Int) : Except Unit Nat :=
  if 0 ≤ i ∧ i < 4294967296 then .ok i.toNat else .error ()

/-- Insert an entry into a list that is sorted by non-increasing normalized
length, keeping the sort stable (earlier entries stay in front of equal-length
later ones).  Together with `sortCacheDesc` this models the
`std::stable_sort` by `lhs.first.size() > rhs.first.size()` in
`_getProfileForCommandLine`. -/
def insertDesc (e : List Char × Profile) :
    List (List Char × Profile) → List (List Char × Profile)
  | [] => [e]
  | x :: xs =>
    if e.1.length < x.1.length then x :: insertDesc e xs else e :: x :: xs

/-- Stable sort by descending normalized command-line length. -/
def sortCacheDesc (l : List (List Char × Profile)) :
    List (List Char × Profile) :=
  l.foldr insertDesc []

/-- The body of the `std::call_once` in `_getProfileForCommandLine`: collect
`(_normalizeCommandLine(cmd), profile)` for every profile with a non-empty
command line, in `_allProfiles` order, then stable-sort by descending
normalized length. -/
def buildCommandLinesCache (norm : String → List Char)
    (profiles : List Profile) : List (List Char × Profile) :=
  sortCacheDesc (profiles.filterMap
    (fun p => if p.commandline = "" then none else some (norm p.commandline, p)))

/-- The lookup phase of `_getProfileForCommandLine`: `std::lower_bound` skips
the entries whose normalized length exceeds the needle's (on the
descending-sorted cache this is exactly `dropWhile`), then a linear scan
returns the first entry whose normalized command line is a prefix of the
needle (`til::starts_with`). -/
def commandLineLookup (cache : List (List Char × Profile))
    (needle : List Char) : Option Profile :=
  ((cache.dropWhile (fun e => needle.length < e.1.length)).find?
      (fun e => e.1.isPrefixOf needle)).map (fun e => e.2)

/-- The pure result of `_getProfileForCommandLine`: use the cached table if the
`call_once` has already run, otherwise the table built from the current
profile list. -/
def resolveCommandLineCached (norm : String → List Char)
    (s : CascadiaSettings) (commandLine : String) : Option Profile :=
  commandLineLookup (s.commandLinesCache.getD (buildCommandLinesCache norm s.allProfiles))
    (norm commandLine)

/-- `_getProfileForCommandLine` with its `std::call_once` state: on first use
the cache is built from the current `_allProfiles` and stored; afterwards the
stored cache is reused unchanged. -/
def getProfileForCommandLineSt (norm : String → List Char)
    (s : CascadiaSettings) (commandLine : String) :
    Option Profile × CascadiaSettings :=
  match s.commandLinesCache with
  | some c => (commandLineLookup c (norm commandLine), s)
  | none =>
    let c := buildCommandLinesCache norm s.allProfiles
    (commandLineLookup c (norm commandLine), { s with commandLinesCache := some c })

/-- The trailing return of `GetProfileForArgs`: with the
`Feature_ShowProfileDefaultsInSettings` feature enabled, return the
default-GUID profile when the request is null or carries an empty command
line, else the base-layer profile (`ProfileDefaults()`); with the feature
disabled, always the default-GUID profile. -/
def showDefaultsFallback (feature : Bool) (s : CascadiaSettings)
    (args : Option NewTerminalArgs) : Option Profile :=
  if feature then
    if (match args with | none => true | some a => a.commandline = "") then
      findProfile s s.defaultProfile
    else some s.baseLayerProfile
  else findProfile s s.defaultProfile

/-- The command-line step of `GetProfileForArgs`: a non-empty command line is
resolved via `_getProfileForCommandLine`; on a hit that profile is returned,
otherwise control falls through to the trailing return `fb`. -/
def commandLineBranch (norm : String → List Char) (s : CascadiaSettings)
    (a : NewTerminalArgs) (fb : Option Profile) : Except Unit (Option Profile) :=
  if a.commandline = "" then .ok fb
  else
    match resolveCommandLineCached norm s a.commandline with
    | some p => .ok (some p)
    | none => .ok fb

/-- The index step of `GetProfileForArgs`: a set profile index is narrowed to
`uint32_t` (throwing when negative) and looked up in the active-profile list;
on a hit that profile is returned, otherwise control falls through to the
command-line step. -/
def profileIndexBranch (norm : String → List Char) (s : CascadiaSettings)
    (a : NewTerminalArgs) (fb : Option Profile) : Except Unit (Option Profile) :=
  match a.profileIndex with
  | none => commandLineBranch norm s a fb
  | some i =>
    match gslNarrowUint32 i with
    | .error e => .error e
    | .ok idx =>
      match getProfileByIndex s idx with
      | some p => .ok (some p)
      | none => commandLineBranch norm s a fb

/-- `CascadiaSettings::GetProfileForArgs`.  `feature` models the compile-time
`Feature_ShowProfileDefaultsInSettings::IsEnabled()` flag.  The result is
`Except` because `gsl::narrow` throws on negative indices; `.ok none` is the
C++ `nullptr` result. -/
def getProfileForArgs (parseGuid : String → Nat) (norm : String → List Char)
    (feature : Bool) (s : CascadiaSettings) (args : Option NewTerminalArgs) :
    Except Unit (Option Profile) :=
  match args with
  | none => .ok (showDefaultsFallback feature s args)
  | some a =>
    if a.profile = "" then profileIndexBranch norm s a (showDefaultsFallback feature s args)
    else
      match getProfileByName parseGuid s a.profile with
      | some p => .ok (some p)
      | none => profileIndexBranch norm s a (showDefaultsFallback feature s args)

/-- `CreateChild(parent)`: a fresh profile with `Origin = User` whose name,
GUID and hidden flag are copied from the parent and whose single parent is
`parent`.  At the resolved-settings level the child therefore resolves every
other setting to the parent's resolved value. -/
def createChild (parent : Profile) : Profile :=
  { parent with origin := OriginTag.user }

/-- The candidate-name loop of `CreateNewProfile`: `newName` is assigned
`"Profile " ++ toString (count + i)` each iteration and the loop breaks as soon
as no existing profile bears that name; if every candidate is taken the last
assigned name survives.  `fuel` is the number of remaining iterations. -/
def pickNewName (names : List String) (count : Nat) : Nat → Nat → String
  | i, 0 => "Profile " ++ toString (count + i)
  | i, fuel + 1 =>
    let cand := "Profile " ++ toString (count + i)
    if cand ∈ names then
      if fuel = 0 then cand else pickNewName names count (i + 1) fuel
    else cand

/-- `CascadiaSettings::_createNewProfile`: `CreateChild(_baseLayerProfile)`
with a freshly generated GUID (`CoCreateGuid`, modelled as the parameter
`freshGuid`) and the given name. -/
def createNewProfileImpl (freshGuid : Nat) (base : Profile) (name : String) :
    Profile :=
  { createChild base with guid := freshGuid, name := name }

/-- `CascadiaSettings::CreateNewProfile`: guard against a full `uint32` list,
pick a fresh `"Profile N"` name, create the profile as a child of the base
layer, and append it to both `_allProfiles` and `_activeProfiles`. -/
def createNewProfile (freshGuid : Nat) (s : CascadiaSettings) :
    Option Profile × CascadiaSettings :=
  if s.allProfiles.length = 4294967295 then (none, s)
  else
    let count := s.allProfiles.length + 1
    let newName := pickNewName (s.allProfiles.map (fun p => p.name)) count 0 count
    let p := createNewProfileImpl freshGuid s.baseLayerProfile newName
    (some p, { s with allProfiles := s.allProfiles ++ [p],
                      activeProfiles := s.activeProfiles ++ [p] })

/-- The candidate-name loop of `DuplicateProfile`: the current candidate is
checked first and replaced by `"<src> (<suffix> k)"` (k starting at 2) while it
collides. -/
def pickDupName (names : List String) (src suffix : String) :
    Nat → Nat → String → String
  | _, 0, cur => cur
  | i, fuel + 1, cur =>
    if cur ∈ names then
      pickDupName names src suffix (i + 1) fuel
        (src ++ " (" ++ suffix ++ " " ++ toString (i + 2) ++ ")")
    else cur

/-- `CascadiaSettings::DuplicateProfile`, at the resolved-settings level.  The
duplicate is `_createNewProfile(newName)` — hence hidden iff the base layer is
hidden (`Hidden` is deliberately *not* copied from the source) — and every
duplicated setting (command line, appearances, icon) resolves to the source's
resolved value (the `DUPLICATE_SETTING_MACRO`s copy the source's resolved
value whenever the setting does not come from profiles.defaults, and the
base-layer parent supplies the same resolved value otherwise).  The duplicate
is appended to both profile lists.  `copySuffix` abstracts the localized
`RS_(L"CopySuffix")` resource. -/
def duplicateProfile (freshGuid : Nat) (copySuffix : String)
    (s : CascadiaSettings) (source : Profile) : Profile × CascadiaSettings :=
  let count := s.allProfiles.length + 1
  let newName := pickDupName (s.allProfiles.map (fun p => p.name)) source.name
    copySuffix 0 count (source.name ++ " (" ++ copySuffix ++ ")")
  let d0 := createNewProfileImpl freshGuid s.baseLayerProfile newName
  let d := { d0 with commandline := source.commandline,
                     icon := source.icon,
                     inheritedIcon := source.inheritedIcon,
                     defaultAppearance := source.defaultAppearance,
                     unfocusedAppearance := source.unfocusedAppearance }
  (d, { s with allProfiles := s.allProfiles ++ [d],
               activeProfiles := s.activeProfiles ++ [d] })

/-- `CascadiaSettings::Copy`, at the flat list level: the cloned profiles keep
all their (resolved) settings, `_activeProfiles` is rebuilt from the cloned
`_allProfiles` by the `!profile->Hidden()` filter, warnings / load error /
error message are copied, and the command-line cache of the new container is
unbuilt (a fresh `std::once_flag`).  (The graph aspect of the clone is modelled
separately by `copyGraphSettings` below.) -/
def copySettings (s : CascadiaSettings) : CascadiaSettings :=
  { baseLayerProfile := s.baseLayerProfile
    allProfiles := s.allProfiles
    activeProfiles := s.allProfiles.filter (fun p => !p.hidden)
    warnings := s.warnings
    loadError := s.loadError
    deserializationErrorMessage := s.deserializationErrorMessage
    keybindingsWarnings := s.keybindingsWarnings
    colorSchemes := s.colorSchemes
    defaultProfile := s.defaultProfile
    commands := s.commands
    commandLinesCache := none }

/-- `appearance.ColorSchemeName()`: the explicit value if set, else the
parent-resolved value. -/
def resolvedSchemeName (a : Appearance) : String :=
  a.colorSchemeName.getD a.inheritedColorSchemeName

/-- One appearance step of `_validateAllSchemesExist`: if the resolved scheme
name is not a key of `_globals->ColorSchemes()`, clear the explicit reference
(`ClearColorSchemeName`) and report that an invalid scheme was found. -/
def fixAppearanceScheme (schemes : List String) (a : Appearance) :
    Appearance × Bool :=
  if schemes.contains (resolvedSchemeName a) then (a, false)
  else ({ a with colorSchemeName := none }, true)

/-- `_validateAllSchemesExist` on one profile: both the default appearance and
(when present) the unfocused appearance are checked. -/
def fixProfileSchemes (schemes : List String) (p : Profile) : Profile × Bool :=
  let d := fixAppearanceScheme schemes p.defaultAppearance
  match p.unfocusedAppearance with
  | none => ({ p with defaultAppearance := d.1 }, d.2)
  | some u =>
    let uu := fixAppearanceScheme schemes u
    ({ p with defaultAppearance := d.1, unfocusedAppearance := some uu.1 },
      d.2 || uu.2)

/-- `CascadiaSettings::_validateAllSchemesExist`: repair every profile and
append a single `UnknownColorScheme` warning iff any appearance referenced a
non-existent scheme.  The profile objects are shared between `_allProfiles`
and `_activeProfiles` in C++, so the mutation is applied to both lists. -/
def validateAllSchemesExist (s : CascadiaSettings) : CascadiaSettings :=
  let found := s.allProfiles.any (fun p => (fixProfileSchemes s.colorSchemes p).2)
  { s with
    allProfiles := s.allProfiles.map (fun p => (fixProfileSchemes s.colorSchemes p).1)
    activeProfiles := s.activeProfiles.map (fun p => (fixProfileSchemes s.colorSchemes p).1)
    warnings := s.warnings ++
      (if found then [SettingsLoadWarning.unknownColorScheme] else []) }

/-- One appearance step of `_validateMediaResources`: if the resolved
(expanded) background image path is non-empty and does not parse as a URI
(`validUri` abstracts the `Windows.Foundation.Uri` constructor), clear the
explicit path and report an invalid background. -/
def fixAppearanceBg (validUri : String → Bool) (a : Appearance) :
    Appearance × Bool :=
  let path := a.backgroundImagePath.getD a.inheritedBackgroundImagePath
  if path = "" then (a, false)
  else if validUri path then (a, false)
  else ({ a with backgroundImagePath := none }, true)

/-- `_validateMediaResources` on one profile: default appearance background,
unfocused appearance background (when present), and the icon — an icon of at
most 2 code units is exempt (emoji/symbol), longer icons must parse as a URI
after environment expansion or are cleared.  Returns
(repaired profile, invalid-background seen, invalid-icon seen). -/
def fixProfileMedia (validUri : String → Bool) (p : Profile) :
    Profile × Bool × Bool :=
  let d := fixAppearanceBg validUri p.defaultAppearance
  let u :=
    match p.unfocusedAppearance with
    | none => (Option.none, false)
    | some a =>
      let r := fixAppearanceBg validUri a
      (some r.1, r.2)
  let icon := p.icon.getD p.inheritedIcon
  let ic :=
    if icon.length > 2 then
      if validUri icon then (p.icon, false) else (Option.none, true)
    else (p.icon, false)
  ({ p with defaultAppearance := d.1, unfocusedAppearance := u.1, icon := ic.1 },
    d.2 || u.2, ic.2)

/-- `CascadiaSettings::_validateMediaResources`: repair every profile; append
one `InvalidBackgroundImage` warning iff any background path was invalid, then
one `InvalidIcon` warning iff any icon was invalid. -/
def validateMediaResources (validUri : String → Bool) (s : CascadiaSettings) :
    CascadiaSettings :=
  let anyBg := s.allProfiles.any (fun p => (fixProfileMedia validUri p).2.1)
  let anyIcon := s.allProfiles.any (fun p => (fixProfileMedia validUri p).2.2)
  { s with
    allProfiles := s.allProfiles.map (fun p => (fixProfileMedia validUri p).1)
    activeProfiles := s.activeProfiles.map (fun p => (fixProfileMedia validUri p).1)
    warnings := s.warnings ++
      (if anyBg then [SettingsLoadWarning.invalidBackgroundImage] else []) ++
      (if anyIcon then [SettingsLoadWarning.invalidIcon] else []) }

/-- `CascadiaSettings::_validateKeybindings`: if the action map collected any
keybinding warnings, append the `AtLeastOneKeybindingWarning` umbrella marker
followed by each collected warning. -/
def validateKeybindings (s : CascadiaSettings) : CascadiaSettings :=
  if s.keybindingsWarnings.isEmpty then s
  else { s with warnings := s.warnings ++
          [SettingsLoadWarning.atLeastOneKeybindingWarning] ++ s.keybindingsWarnings }

mutual

/-- `CascadiaSettings::_hasInvalidColorScheme`: a command is invalid if any
nested command is, or if it is a `setColorScheme` action that is not iterated
over color schemes and whose scheme name is not a known scheme. -/
def hasInvalidColorScheme (schemes : List String) : Command → Bool
  | .nested children => hasInvalidColorSchemeList schemes children
  | .setColorScheme iter name => !iter && !(schemes.contains name)
  | .plain => false

/-- The nested-command loop of `_hasInvalidColorScheme`. -/
def hasInvalidColorSchemeList (schemes : List String) : List Command → Bool
  | [] => false
  | c :: cs => hasInvalidColorScheme schemes c || hasInvalidColorSchemeList schemes cs

end

/-- `CascadiaSettings::_validateColorSchemesInCommands`: append one
`InvalidColorSchemeInCmd` warning iff any command in the name map has an
invalid color scheme. -/
def validateColorSchemesInCommands (s : CascadiaSettings) : CascadiaSettings :=
  if s.commands.any (hasInvalidColorScheme s.colorSchemes) then
    { s with warnings := s.warnings ++ [SettingsLoadWarning.invalidColorSchemeInCmd] }
  else s

/-- `CascadiaSettings::_validateSettings`: the fixed sequence of the four
validation passes. -/
def validateSettings (validUri : String → Bool) (s : CascadiaSettings) :
    CascadiaSettings :=
  validateColorSchemesInCommands
    (validateKeybindings (validateMediaResources validUri (validateAllSchemesExist s)))

/-- Spec-side predicate: the profile has some appearance (default or
unfocused) whose resolved color-scheme name is not a known scheme. -/
def profileHasUnknownScheme (schemes : List String) (p : Profile) : Bool :=
  !schemes.contains (resolvedSchemeName p.defaultAppearance) ||
    (match p.unfocusedAppearance with
     | none => false
     | some u => !schemes.contains (resolvedSchemeName u))

/-- An appearance is settled when its resolved scheme name names an existing
scheme and its resolved background image path is empty or a valid URI. -/
def appearanceSettled (validUri : String → Bool) (schemes : List String)
    (a : Appearance) : Bool :=
  schemes.contains (resolvedSchemeName a) &&
    ((a.backgroundImagePath.getD a.inheritedBackgroundImagePath == "") ||
      validUri (a.backgroundImagePath.getD a.inheritedBackgroundImagePath))

/-- A profile is settled when both appearances are settled and its resolved
icon is short (≤ 2 code units) or a valid URI: the scheme and media validation
passes leave such a profile untouched and report nothing. -/
def profileSettled (validUri : String → Bool) (schemes : List String)
    (p : Profile) : Bool :=
  appearanceSettled validUri schemes p.defaultAppearance &&
  (match p.unfocusedAppearance with
   | none => true
   | some u => appearanceSettled validUri schemes u) &&
  (decide ((p.icon.getD p.inheritedIcon).length ≤ 2) ||
    validUri (p.icon.getD p.inheritedIcon))

/-!
## The inheritance graph and `CascadiaSettings::Copy`

`Profile::CopyInheritanceGraph` lives outside the reviewed sources, so the
graph clone is modelled from the spec (§4.1, §9): profiles form an arena of
nodes addressed by stable identifiers, parent lists are identifier arrays, and
the clone is a memoized traversal carrying a visited map from source identity
to the already-cloned node.  The two arenas of a container and its copy share
no node (the copy is a fresh arena), which is the spec's "zero shared node
identity". -/

/-- A node of the inheritance graph: opaque scalar settings plus the ordered
parent identifier list. -/
structure PNode where
  payload : Nat
  parents : List Nat
deriving DecidableEq

/-- An arena of graph nodes addressed by identifier. -/
abbrev Arena := List (Nat × PNode)

/-- Identifier lookup in an arena (first entry wins). -/
def alookup (i : Nat) : Arena → Option PNode
  | [] => none
  | e :: t => if e.1 = i then some e.2 else alookup i t

/-- The identifiers present in an arena. -/
def akeys (a : Arena) : List Nat := List.map Prod.fst a

/-- Modelled from the spec: `Profile::CopyInheritanceGraph`.  Visit a node:
if it is already in the visited/target arena, do nothing; otherwise first
clone all of its parents (memoized, in declared order), then append the
shallow copy of the node — identifier, scalar settings and parent identifier
list all preserved — to the target arena.  `fuel` bounds the recursion depth
(any bound exceeding the graph's rank is exact; a genuine cycle would exhaust
it, matching the spec's "assert rather than infinite-loop"). -/
def cloneNode (src : Arena) : Nat → Nat → Arena → Arena
  | 0, _, tgt => tgt
  | fuel + 1, i, tgt =>
    if (alookup i tgt).isSome then tgt
    else
      match alookup i src with
      | none => tgt
      | some nd => (nd.parents.foldl (fun t p => cloneNode src fuel p t) tgt) ++ [(i, nd)]

/-- Clone a list of roots in order into an accumulating target arena
(`Profile::CopyInheritanceGraphs`). -/
def cloneRoots (src : Arena) (fuel : Nat) (roots : List Nat) (tgt : Arena) :
    Arena :=
  roots.foldl (fun t i => cloneNode src fuel i t) tgt

/-- The graph view of a settings container: the node arena, the distinguished
base-layer node, the declared profile nodes in order, and the load results
that `Copy` transfers. -/
structure GraphSettings where
  arena : Arena
  baseLayerId : Nat
  profileIds : List Nat
  warnings : List SettingsLoadWarning
  loadError : Option Nat
  deserializationErrorMessage : String

/-- `CascadiaSettings::Copy`, graph view: clone the base layer first, then the
declared profiles in order, into one shared visited/target arena, and copy the
warning list, the load error and the deserialization error message. -/
def copyGraphSettings (g : GraphSettings) : GraphSettings :=
  let fuel := g.arena.length
  { arena := cloneRoots g.arena fuel g.profileIds (cloneNode g.arena fuel g.baseLayerId [])
    baseLayerId := g.baseLayerId
    profileIds := g.profileIds
    warnings := g.warnings
    loadError := g.loadError
    deserializationErrorMessage := g.deserializationErrorMessage }

/-- A parent edge of the graph recorded in an arena. -/
abbrev ParentEdge (src : Arena) (i j : Nat) : Prop :=
  ∃ nd, alookup i src = some nd ∧ j ∈ nd.parents

/-- Reachability along parent edges. -/
abbrev Reaches (src : Arena) (i j : Nat) : Prop :=
  Relation.ReflTransGen (ParentEdge src) i j

/-- Every entry of the target arena is the verbatim copy of the source node
with the same identifier (clone "mirrors the source graph"). -/
def EntriesFrom (src t : Arena) : Prop :=
  ∀ e ∈ t, alookup e.1 src = some e.2

/-- The target arena is parent-closed: parents of every stored node are
present. -/
def ClosedT (t : Arena) : Prop :=
  ∀ e ∈ t, ∀ p ∈ e.2.parents, p ∈ akeys t

/-!
## Concrete instances used by witnesses and counterexamples
-/

/-- An appearance with no explicit scheme, inheriting `"Campbell"`. -/
def appOk : Appearance :=
  { colorSchemeName := none, inheritedColorSchemeName := "Campbell"
    backgroundImagePath := none, inheritedBackgroundImagePath := "" }

/-- An appearance explicitly referencing the (possibly unknown) scheme
`"Foo"`. -/
def appFoo : Appearance :=
  { colorSchemeName := some "Foo", inheritedColorSchemeName := "Campbell"
    backgroundImagePath := none, inheritedBackgroundImagePath := "" }

/-- A base-layer (profiles.defaults) profile. -/
def baseProf : Profile :=
  { guid := 100, name := "Defaults", hidden := false
    origin := OriginTag.profilesDefaults, commandline := "cmd.exe"
    icon := none, inheritedIcon := "", defaultAppearance := appOk
    unfocusedAppearance := none }

/-- A plain user profile with GUID 2 and no command line. -/
def profD : Profile :=
  { guid := 2, name := "D", hidden := false, origin := OriginTag.user
    commandline := "", icon := none, inheritedIcon := ""
    defaultAppearance := appOk, unfocusedAppearance := none }

/-- Assemble a container with no warnings, no errors, scheme table
`["Campbell"]`, no commands and an unbuilt command-line cache. -/
def mkSettings (base : Profile) (all act : List Profile) (defg : Nat) :
    CascadiaSettings :=
  { baseLayerProfile := base, allProfiles := all, activeProfiles := act
    warnings := [], loadError := none, deserializationErrorMessage := ""
    keybindingsWarnings := [], colorSchemes := ["Campbell"]
    defaultProfile := defg, commands := [], commandLinesCache := none }

/-- A container whose default-profile GUID resolves to `profD` and whose base
layer is `baseProf`. -/
def settingsD : CascadiaSettings := mkSettings baseProf [profD] [profD] 2

/-- A 38-character string starting with `{`, i.e. one that passes the GUID
heuristic of `GetProfileByName`. -/
def guidStr : String := "\x7b00000000-0000-0000-0000-000000000000\x7d"

/-- A concrete stand-in for `Utils::GuidFromString` mapping `guidStr` to 7. -/
def parseGuidC : String → Nat := fun str => if str = guidStr then 7 else 0

/-- Profile with GUID 7 named `"A"`. -/
def profA : Profile :=
  { guid := 7, name := "A", hidden := false, origin := OriginTag.user
    commandline := "", icon := none, inheritedIcon := ""
    defaultAppearance := appOk, unfocusedAppearance := none }

/-- Profile with GUID 8 whose *name* is the GUID-shaped string `guidStr`. -/
def profB : Profile :=
  { guid := 8, name := guidStr, hidden := false, origin := OriginTag.user
    commandline := "", icon := none, inheritedIcon := ""
    defaultAppearance := appOk, unfocusedAppearance := none }

/-- Container holding `profA` (GUID 7) and `profB` (named `guidStr`). -/
def settingsAB : CascadiaSettings := mkSettings baseProf [profA, profB] [profA, profB] 7

/-- A trivial normalization function for scenarios that never reach the
command-line branch. -/
def normNull : String → List Char := fun _ => []

/-- A base-layer profile that is hidden. -/
def baseHidden : Profile := { baseProf with hidden := true }

/-- A container whose base-layer profile is hidden and whose profile lists are
empty (so the active-subset invariant initially holds). -/
def settingsHiddenBase : CascadiaSettings := mkSettings baseHidden [] [] 0

/-- `profA` with command line `"a"`. -/
def profACmd : Profile := { profA with commandline := "a" }

/-- A base-layer profile with command line `"x"`. -/
def baseX : Profile := { baseProf with commandline := "x" }

/-- Container with one profile declaring command line `"a"`, whose base layer
declares `"x"`, and no cache built yet. -/
def settingsCmd : CascadiaSettings := mkSettings baseX [profACmd] [profACmd] 7

/-- A concrete normalization: the command line's own characters (adequate for
single-token command lines with no quoting or path resolution). -/
def normData : String → List Char := fun str => str.data

/-- A container whose action map collected one keybinding warning. -/
def settingsKb : CascadiaSettings :=
  { mkSettings baseProf [] [] 0 with
      keybindingsWarnings := [SettingsLoadWarning.other 0] }

/-- A URI validator accepting everything. -/
def validUriAll : String → Bool := fun _ => true

/-- A profile explicitly referencing the unknown scheme `"Foo"` (with valid
inherited fallback `"Campbell"`). -/
def profFoo : Profile := { profD with defaultAppearance := appFoo }

/-- A container with one profile whose scheme reference is dangling. -/
def settingsFoo : CascadiaSettings := mkSettings baseProf [profFoo] [profFoo] 2

/-- Profile declaring the command line `"a.exe"`. -/
def profAx : Profile :=
  { guid := 21, name := "ax", hidden := false, origin := OriginTag.user
    commandline := "a.exe", icon := none, inheritedIcon := ""
    defaultAppearance := appOk, unfocusedAppearance := none }

/-- Profile declaring the command line `"a.exe -x"`. -/
def profAxX : Profile :=
  { guid := 22, name := "axx", hidden := false, origin := OriginTag.user
    commandline := "a.exe -x", icon := none, inheritedIcon := ""
    defaultAppearance := appOk, unfocusedAppearance := none }

/-- A concrete normalization for the `a.exe` scenario: the executable token
followed by the remaining tokens separated by the `\0` sentinel. -/
def normAx : String → List Char := fun s =>
  if s = "a.exe" then "a.exe".data
  else if s = "a.exe -x" then "a.exe".data ++ [Char.ofNat 0] ++ "-x".data
  else if s = "a.exe -x -y" then
    "a.exe".data ++ [Char.ofNat 0] ++ "-x".data ++ [Char.ofNat 0] ++ "-y".data
  else s.data

/-- A diamond-shaped inheritance arena: node 3 has parents 1 and 2, both of
which have the base node 0 as parent. -/
def diamondArena : Arena :=
  [(0, { payload := 0, parents := [] }),
   (1, { payload := 1, parents := [0] }),
   (2, { payload := 2, parents := [0] }),
   (3, { payload := 3, parents := [1, 2] })]

/-- The graph view of a container over `diamondArena`. -/
def diamondGraph : GraphSettings :=
  { arena := diamondArena, baseLayerId := 0, profileIds := [1, 2, 3]
    warnings := [SettingsLoadWarning.other 5], loadError := none
    deserializationErrorMessage := "diamond" }

/-!
## Claim theorems
-/

/-- C2 (counterexample): a request whose profile-name string exactly names
`profB` (first name match in list order) nevertheless resolves to `profA`,
because the 38-character `{`-prefixed string first GUID-parses to `profA`'s
identifier — the resolution does *not* return the name match. -/
theorem c2_counterexample :
    getProfileForArgs parseGuidC normNull true settingsAB
        (some { profile := guidStr, profileIndex := some 1, commandline := "" }) =
      .ok (some profA)
    ∧ settingsAB.allProfiles.find? (fun p => p.name = guidStr) = some profB
    ∧ profA ≠ profB := by
  refine ⟨rfl, by decide, by decide⟩

/-- C2 (amended): whenever the request carries a non-empty profile-name string
and `GetProfileByName` (GUID heuristic first, then first exact case-sensitive
name match in list order) finds a profile, that profile is returned regardless
of any index or command line also set in the request — the name branch is
tried first and wins exclusively. -/
theorem c2_amended (parseGuid : String → Nat) (norm : String → List Char)
    (feature : Bool) (s : CascadiaSettings) (a : NewTerminalArgs) (p : Profile)
    (hname : a.profile ≠ "")
    (hfound : getProfileByName parseGuid s a.profile = some p) :
    getProfileForArgs parseGuid norm feature s (some a) = .ok (some p) := by
  simp only [getProfileForArgs, if_neg hname, hfound]

/-- C2 (witness): with name `"A"` set (plus an index and a command line that
would point elsewhere), resolution returns `profA`. -/
theorem c2_witness :
    getProfileForArgs parseGuidC normNull true settingsAB
        (some { profile := "A", profileIndex := some 1, commandline := "zzz" }) =
      .ok (some profA) :=
  c2_amended parseGuidC normNull true settingsAB
    { profile := "A", profileIndex := some 1, commandline := "zzz" } profA
    (by decide) (by decide)

/-- C3 (counterexample): with the show-defaults feature enabled and nothing
matching, a request *without* a command line returns the default-GUID profile
(`profD`), not the base-layer profile as claimed; and a request with an
unmatched non-empty command line returns the base-layer profile, not the
default-GUID profile. -/
theorem c3_counterexample :
    getProfileForArgs parseGuidC normNull true settingsD none = .ok (some profD)
    ∧ getProfileForArgs parseGuidC normNull true settingsD
        (some { profile := "", profileIndex := none, commandline := "x" }) =
      .ok (some baseProf)
    ∧ profD ≠ baseProf := by
  refine ⟨rfl, rfl, by decide⟩

/-- C3 (amended): when the feature is enabled and neither name, index nor
command line matched, resolution returns the profile whose identifier equals
the global default-profile identifier if the request carried **no** non-empty
command line, and the base-layer (defaults) profile if the request **did**
carry a non-empty (unmatched) command line; a null request likewise yields the
default-GUID profile. -/
theorem c3_amended (parseGuid : String → Nat) (norm : String → List Char)
    (s : CascadiaSettings) (a : NewTerminalArgs)
    (hname : a.profile = "" ∨ getProfileByName parseGuid s a.profile = none)
    (hidx : a.profileIndex = none ∨
      ∃ i, a.profileIndex = some i ∧ 0 ≤ i ∧ i < 4294967296 ∧
        getProfileByIndex s i.toNat = none)
    (hcmd : a.commandline = "" ∨ resolveCommandLineCached norm s a.commandline = none) :
    getProfileForArgs parseGuid norm true s (some a) =
      .ok (if a.commandline = "" then findProfile s s.defaultProfile
           else some s.baseLayerProfile)
    ∧ getProfileForArgs parseGuid norm true s none =
      .ok (findProfile s s.defaultProfile) := by
  constructor
  · have hfb : showDefaultsFallback true s (some a) =
        (if a.commandline = "" then findProfile s s.defaultProfile
         else some s.baseLayerProfile) := by
      by_cases hc : a.commandline = "" <;> simp [showDefaultsFallback, hc]
    have hcb : commandLineBranch norm s a (showDefaultsFallback true s (some a)) =
        .ok (showDefaultsFallback true s (some a)) := by
      rcases hcmd with hc | hc
      · simp [commandLineBranch, hc]
      · by_cases he : a.commandline = "" <;> simp [commandLineBranch, he, hc]
    have hib : profileIndexBranch norm s a (showDefaultsFallback true s (some a)) =
        .ok (showDefaultsFallback true s (some a)) := by
      rcases hidx with hi | ⟨i, hi, hge, hlt, hnone⟩
      · simp only [profileIndexBranch, hi]
        exact hcb
      · have hnar : gslNarrowUint32 i = .ok i.toNat := by
          simp [gslNarrowUint32, hge, hlt]
        simp only [profileIndexBranch, hi, hnar, hnone]
        exact hcb
    by_cases he : a.profile = ""
    · simp only [getProfileForArgs, if_pos he]
      rw [hib, hfb]
    · have hn' : getProfileByName parseGuid s a.profile = none := by
        rcases hname with hn | hn
        · exact absurd hn he
        · exact hn
      simp only [getProfileForArgs, if_neg he, hn']
      rw [hib, hfb]
  · rfl

/-- C3 (witness): on `settingsD`, an all-empty request resolves to the
default-GUID profile `profD` and an unmatched-command-line request resolves to
the base layer. -/
theorem c3_witness :
    getProfileForArgs parseGuidC normNull true settingsD
        (some { profile := "", profileIndex := none, commandline := "x" }) =
      .ok (some settingsD.baseLayerProfile) := by
  have h := (c3_amended parseGuidC normNull settingsD
    { profile := "", profileIndex := none, commandline := "x" }
    (Or.inl rfl) (Or.inl rfl) (Or.inr rfl)).1
  simpa using h

/-- C4 (counterexample): a request whose profile index is negative makes
resolution throw (`gsl::narrow<uint32_t>` fails), refuting "always returns a
profile and never throws". -/
theorem c4_counterexample :
    getProfileForArgs parseGuidC normNull true settingsD
        (some { profile := "", profileIndex := some (-1), commandline := "" }) =
      .error () := rfl

/-- C4 (amended): for every request whose index, when present, is a valid
`uint32` (in particular non-negative), resolution over a validated container
(one whose default-profile GUID resolves) returns some profile and never
throws; an out-of-range non-negative index simply yields no index match and
falls through. -/
theorem c4_amended (parseGuid : String → Nat) (norm : String → List Char)
    (feature : Bool) (s : CascadiaSettings) (args : Option NewTerminalArgs)
    (hdef : (findProfile s s.defaultProfile).isSome)
    (hidx : ∀ a, args = some a → ∀ i, a.profileIndex = some i →
      0 ≤ i ∧ i < 4294967296) :
    ∃ p, getProfileForArgs parseGuid norm feature s args = .ok (some p) := by
  obtain ⟨q, hq⟩ := Option.isSome_iff_exists.mp hdef
  have hfb : ∃ r, showDefaultsFallback feature s args = some r := by
    unfold showDefaultsFallback
    by_cases hf : feature
    · simp only [if_pos hf]
      split
      · exact ⟨q, hq⟩
      · exact ⟨s.baseLayerProfile, rfl⟩
    · simp only [if_neg hf]
      exact ⟨q, hq⟩
  obtain ⟨r, hr⟩ := hfb
  cases args with
  | none => exact ⟨r, by simp only [getProfileForArgs, hr]⟩
  | some a =>
    have hcb : ∃ p, commandLineBranch norm s a (showDefaultsFallback feature s (some a)) =
        .ok (some p) := by
      unfold commandLineBranch
      by_cases hc : a.commandline = ""
      · exact ⟨r, by simp only [if_pos hc, hr]⟩
      · simp only [if_neg hc]
        rcases hres : resolveCommandLineCached norm s a.commandline with _ | p
        · exact ⟨r, by rw [hr]⟩
        · exact ⟨p, rfl⟩
    have hib : ∃ p, profileIndexBranch norm s a (showDefaultsFallback feature s (some a)) =
        .ok (some p) := by
      rcases hpi : a.profileIndex with _ | i
      · simp only [profileIndexBranch, hpi]
        exact hcb
      · obtain ⟨hge, hlt⟩ := hidx a rfl i hpi
        have hnar : gslNarrowUint32 i = .ok i.toNat := by
          simp [gslNarrowUint32, hge, hlt]
        simp only [profileIndexBranch, hpi, hnar]
        rcases hgp : getProfileByIndex s i.toNat with _ | p
        · simp only [hgp]
          exact hcb
        · exact ⟨p, by simp only [hgp]⟩
    by_cases hp : a.profile = ""
    · obtain ⟨p, hpb⟩ := hib
      exact ⟨p, by simp only [getProfileForArgs, if_pos hp, hpb]⟩
    · rcases hgn : getProfileByName parseGuid s a.profile with _ | p
      · obtain ⟨p2, hpb⟩ := hib
        exact ⟨p2, by simp only [getProfileForArgs, if_neg hp, hgn, hpb]⟩
      · exact ⟨p, by simp only [getProfileForArgs, if_neg hp, hgn]⟩

/-- C4 (witness): scenario D — index 5 with only one active profile yields no
index match and resolution still returns a profile. -/
theorem c4_witness :
    ∃ p, getProfileForArgs parseGuidC normNull true settingsD
        (some { profile := "", profileIndex := some 5, commandline := "" }) =
      .ok (some p) :=
  c4_amended parseGuidC normNull true settingsD
    (some { profile := "", profileIndex := some 5, commandline := "" })
    (by decide)
    (by intro a ha i hi
        cases ha
        cases hi
        exact ⟨by decide, by decide⟩)

/-- C10: in `GetProfileByName`, a 38-character `{`-prefixed string whose parsed
GUID matches a profile returns that GUID match before any name comparison;
and whenever the GUID lookup is not attempted or fails, the string is compared
against profile names, returning the first match in list order. -/
theorem c10_guid_heuristic (parseGuid : String → Nat) (s : CascadiaSettings)
    (name : String) (p : Profile) :
    (name.length = 38 → name.front = openingBrace →
      findProfile s (parseGuid name) = some p →
      getProfileByName parseGuid s name = some p)
    ∧ (name ≠ "" →
      (¬(name.length = 38 ∧ name.front = openingBrace) ∨
        findProfile s (parseGuid name) = none) →
      getProfileByName parseGuid s name =
        s.allProfiles.find? (fun q => q.name = name)) := by
  constructor
  · intro hlen hfront hfind
    have hne : name ≠ "" := by
      intro h
      rw [h] at hlen
      simp at hlen
    have hc : name.length = 38 ∧ name.front = openingBrace := ⟨hlen, hfront⟩
    simp only [getProfileByName, if_neg hne, if_pos hc, hfind]
  · intro hne hcase
    rcases hcase with hnot | hnone
    · simp only [getProfileByName, if_neg hne, if_neg hnot]
    · by_cases hheur : name.length = 38 ∧ name.front = openingBrace
      · simp only [getProfileByName, if_neg hne, if_pos hheur, hnone]
      · simp only [getProfileByName, if_neg hne, if_neg hheur]

/-- C10 (witness): on `settingsAB`, `guidStr` resolves to `profA` by GUID even
though `profB`'s literal name equals the string, and a plain name `"A"` is
resolved by the first-name-match scan. -/
theorem c10_witness :
    getProfileByName parseGuidC settingsAB guidStr = some profA
    ∧ getProfileByName parseGuidC settingsAB "A" =
        settingsAB.allProfiles.find? (fun q => q.name = "A")
    ∧ settingsAB.allProfiles.find? (fun q => q.name = guidStr) = some profB :=
  ⟨(c10_guid_heuristic parseGuidC settingsAB guidStr profA).1
      (by decide) (by decide) (by decide),
   (c10_guid_heuristic parseGuidC settingsAB "A" profA).2
      (by decide) (Or.inl (by decide)),
   by decide⟩

/-- C6 (counterexample): with a *hidden* base-layer profile (and the invariant
holding beforehand), `CreateNewProfile` appends a hidden profile — `CreateChild`
copies the base layer's hidden flag — to the active list unconditionally, so
afterwards the active list is no longer the not-hidden filter of the full
list. -/
theorem c6_counterexample :
    settingsHiddenBase.activeProfiles =
      settingsHiddenBase.allProfiles.filter (fun p => !p.hidden)
    ∧ (createNewProfile 5 settingsHiddenBase).2.activeProfiles ≠
      (createNewProfile 5 settingsHiddenBase).2.allProfiles.filter (fun p => !p.hidden) := by
  refine ⟨rfl, by decide⟩

/-- C6 (amended): the active-profile list equals the all-profiles list
filtered by not-hidden after `Copy` unconditionally, and after
`CreateNewProfile` / `DuplicateProfile` provided the invariant held before and
the base-layer profile is not hidden (the created or duplicated profile
inherits the base layer's hidden flag via `CreateChild`). -/
theorem c6_amended (s : CascadiaSettings) (g1 g2 : Nat) (suffix : String)
    (src : Profile)
    (hinv : s.activeProfiles = s.allProfiles.filter (fun p => !p.hidden))
    (hbase : s.baseLayerProfile.hidden = false) :
    (copySettings s).activeProfiles =
      (copySettings s).allProfiles.filter (fun p => !p.hidden)
    ∧ (createNewProfile g1 s).2.activeProfiles =
      (createNewProfile g1 s).2.allProfiles.filter (fun p => !p.hidden)
    ∧ (duplicateProfile g2 suffix s src).2.activeProfiles =
      (duplicateProfile g2 suffix s src).2.allProfiles.filter (fun p => !p.hidden) := by
  refine ⟨rfl, ?_, ?_⟩
  · unfold createNewProfile
    by_cases hg : s.allProfiles.length = 4294967295
    · simp only [if_pos hg]
      exact hinv
    · simp only [if_neg hg, List.filter_append]
      have hh : (createNewProfileImpl g1 s.baseLayerProfile
          (pickNewName (s.allProfiles.map (fun p => p.name))
            (s.allProfiles.length + 1) 0 (s.allProfiles.length + 1))).hidden = false := hbase
      rw [← hinv]
      simp [hh]
  · unfold duplicateProfile
    simp only [List.filter_append]
    have hh : (createNewProfileImpl g2 s.baseLayerProfile
        (pickDupName (s.allProfiles.map (fun p => p.name)) src.name suffix 0
          (s.allProfiles.length + 1)
          (src.name ++ " (" ++ suffix ++ ")"))).hidden = false := hbase
    rw [← hinv]
    simp [hh]

/-- C6 (witness): on `settingsD` (base not hidden, invariant holding), all
three operations preserve the active-subset invariant. -/
theorem c6_witness :
    (copySettings settingsD).activeProfiles =
      (copySettings settingsD).allProfiles.filter (fun p => !p.hidden)
    ∧ (createNewProfile 33 settingsD).2.activeProfiles =
      (createNewProfile 33 settingsD).2.allProfiles.filter (fun p => !p.hidden)
    ∧ (duplicateProfile 34 "Copy" settingsD profD).2.activeProfiles =
      (duplicateProfile 34 "Copy" settingsD profD).2.allProfiles.filter (fun p => !p.hidden) :=
  c6_amended settingsD 33 34 "Copy" profD (by decide) (by decide)

/-- C9 (counterexample): build the cache by resolving `"a"`, then add a
profile via `CreateNewProfile` (it inherits the base layer's command line
`"x"`); resolving `"x"` afterwards still uses the stale cache and finds
nothing, although matching against the updated profile set would find the new
profile — the container does **not** invalidate or rebuild the cache when its
profile set changes. -/
theorem c9_counterexample :
    (getProfileForCommandLineSt normData
        ((createNewProfile 12 (getProfileForCommandLineSt normData settingsCmd "a").2).2)
        "x").1 = none
    ∧ commandLineLookup
        (buildCommandLinesCache normData
          ((createNewProfile 12
              (getProfileForCommandLineSt normData settingsCmd "a").2).2).allProfiles)
        (normData "x") ≠ none := by
  refine ⟨rfl, by decide⟩

/-- C9 (amended): the command-line cache is built at most once per container
lifetime — an already-built cache is reused unchanged, and the first resolver
invocation that needs it builds it from the current profile set and stores
it — but the container never invalidates it: `CreateNewProfile` and
`DuplicateProfile` leave the stored cache untouched (a fresh profile set is
only picked up by a new container, e.g. one produced by `Copy`, whose cache
starts unbuilt). -/
theorem c9_amended (norm : String → List Char) (s : CascadiaSettings)
    (cmd : String) (g : Nat) (suffix : String) (src : Profile) :
    (∀ c, s.commandLinesCache = some c →
      getProfileForCommandLineSt norm s cmd = (commandLineLookup c (norm cmd), s))
    ∧ (s.commandLinesCache = none →
      getProfileForCommandLineSt norm s cmd =
        (commandLineLookup (buildCommandLinesCache norm s.allProfiles) (norm cmd),
         { s with commandLinesCache := some (buildCommandLinesCache norm s.allProfiles) }))
    ∧ (createNewProfile g s).2.commandLinesCache = s.commandLinesCache
    ∧ (duplicateProfile g suffix s src).2.commandLinesCache = s.commandLinesCache
    ∧ (copySettings s).commandLinesCache = none := by
  refine ⟨?_, ?_, ?_, rfl, rfl⟩
  · intro c hc
    simp only [getProfileForCommandLineSt, hc]
  · intro hc
    simp only [getProfileForCommandLineSt, hc]
  · unfold createNewProfile
    by_cases hg : s.allProfiles.length = 4294967295
    · simp only [if_pos hg]
    · simp only [if_neg hg]

/-- C9 (witness): on `settingsCmd`, the first resolution stores the built
cache, a second resolution reuses it, and `CreateNewProfile` leaves it
untouched. -/
theorem c9_witness :
    getProfileForCommandLineSt normData settingsCmd "a" =
      (commandLineLookup (buildCommandLinesCache normData settingsCmd.allProfiles)
        (normData "a"),
       { settingsCmd with
          commandLinesCache := some (buildCommandLinesCache normData settingsCmd.allProfiles) })
    ∧ (createNewProfile 12 settingsCmd).2.commandLinesCache =
      settingsCmd.commandLinesCache :=
  ⟨(c9_amended normData settingsCmd "a" 12 "Copy" profACmd).2.1 rfl,
   (c9_amended normData settingsCmd "a" 12 "Copy" profACmd).2.2.1⟩

/-- A map whose function fixes every element of the list is the identity. -/
theorem map_eq_self_of {α : Type} (l : List α) (f : α → α)
    (h : ∀ x ∈ l, f x = x) : l.map f = l := by
  induction l with
  | nil => rfl
  | cons a t ih =>
    simp only [List.map_cons, h a (by simp)]
    rw [ih (fun x hx => h x (by simp [hx]))]

/-- The invalid-scheme flag returned by `fixProfileSchemes` is exactly the
spec-side `profileHasUnknownScheme` predicate. -/
theorem fixProfileSchemes_snd (schemes : List String) (p : Profile) :
    (fixProfileSchemes schemes p).2 = profileHasUnknownScheme schemes p := by
  unfold fixProfileSchemes profileHasUnknownScheme fixAppearanceScheme
  cases hu : p.unfocusedAppearance with
  | none =>
    by_cases hc : resolvedSchemeName p.defaultAppearance ∈ schemes <;> simp [hc]
  | some u =>
    by_cases hc : resolvedSchemeName p.defaultAppearance ∈ schemes <;>
      by_cases hc2 : resolvedSchemeName u ∈ schemes <;> simp [hc, hc2]

/-- After `fixAppearanceScheme`, the appearance either resolves to an existing
scheme or has its explicit reference cleared. -/
theorem fixAppearanceScheme_post (schemes : List String) (a : Appearance) :
    schemes.contains (resolvedSchemeName (fixAppearanceScheme schemes a).1) = true
    ∨ (fixAppearanceScheme schemes a).1.colorSchemeName = none := by
  unfold fixAppearanceScheme
  by_cases hc : resolvedSchemeName a ∈ schemes
  · left
    simp [hc]
  · right
    simp [hc]

/-- C8: after the color-scheme validation pass, exactly one
`UnknownColorScheme` warning is appended iff one or more appearances (default
or unfocused) resolved to a non-existent scheme (none otherwise); every
profile is rewritten through `fixProfileSchemes`; and afterwards every
appearance either resolves to an existing scheme or has its explicit scheme
reference cleared to inherit/unset. -/
theorem c8_scheme_validation (s : CascadiaSettings) :
    ((validateAllSchemesExist s).warnings = s.warnings ++
      (if s.allProfiles.any (fun p => profileHasUnknownScheme s.colorSchemes p)
       then [SettingsLoadWarning.unknownColorScheme] else []))
    ∧ ((s.allProfiles.any (fun p => profileHasUnknownScheme s.colorSchemes p)) = true ↔
      ∃ p ∈ s.allProfiles, profileHasUnknownScheme s.colorSchemes p = true)
    ∧ (validateAllSchemesExist s).allProfiles =
      s.allProfiles.map (fun p => (fixProfileSchemes s.colorSchemes p).1)
    ∧ ∀ p ∈ (validateAllSchemesExist s).allProfiles,
      (s.colorSchemes.contains (resolvedSchemeName p.defaultAppearance) = true
        ∨ p.defaultAppearance.colorSchemeName = none)
      ∧ ∀ u, p.unfocusedAppearance = some u →
        (s.colorSchemes.contains (resolvedSchemeName u) = true
          ∨ u.colorSchemeName = none) := by
  refine ⟨?_, ?_, rfl, ?_⟩
  · simp only [validateAllSchemesExist]
    simp only [fixProfileSchemes_snd]
  · simp [List.any_eq_true]
  · intro p hp
    simp only [validateAllSchemesExist] at hp
    rw [List.mem_map] at hp
    obtain ⟨q, hq, hfix⟩ := hp
    subst hfix
    unfold fixProfileSchemes
    cases hu : q.unfocusedAppearance with
    | none =>
      refine ⟨fixAppearanceScheme_post s.colorSchemes q.defaultAppearance, ?_⟩
      intro u hu2
      simp [hu] at hu2
    | some w =>
      refine ⟨fixAppearanceScheme_post s.colorSchemes q.defaultAppearance, ?_⟩
      intro u hu2
      simp only at hu2
      have huw : u = (fixAppearanceScheme s.colorSchemes w).1 :=
        (Option.some.inj hu2).symm
      subst huw
      exact fixAppearanceScheme_post s.colorSchemes w

/-- A settled appearance is a fixed point of the scheme repair. -/
theorem fixAppearanceScheme_of_settled (validUri : String → Bool)
    (schemes : List String) (a : Appearance)
    (h : appearanceSettled validUri schemes a = true) :
    fixAppearanceScheme schemes a = (a, false) := by
  unfold appearanceSettled at h
  simp only [Bool.and_eq_true] at h
  obtain ⟨hc, -⟩ := h
  have hc' : resolvedSchemeName a ∈ schemes := by simpa using hc
  unfold fixAppearanceScheme
  simp [hc']

/-- A settled profile is a fixed point of the scheme validation step. -/
theorem fixProfileSchemes_of_settled (validUri : String → Bool)
    (schemes : List String) (p : Profile)
    (h : profileSettled validUri schemes p = true) :
    fixProfileSchemes schemes p = (p, false) := by
  unfold profileSettled at h
  simp only [Bool.and_eq_true] at h
  obtain ⟨⟨hd, hu⟩, -⟩ := h
  obtain ⟨g, nm, hid, org, cl, ic, ii, da, ua⟩ := p
  cases ua with
  | none =>
    simp only at hd
    unfold fixProfileSchemes
    simp [fixAppearanceScheme_of_settled validUri schemes _ hd]
  | some u =>
    simp only at hd hu
    unfold fixProfileSchemes
    simp [fixAppearanceScheme_of_settled validUri schemes _ hd,
      fixAppearanceScheme_of_settled validUri schemes _ hu]

/-- A settled appearance is a fixed point of the background-image repair. -/
theorem fixAppearanceBg_of_settled (validUri : String → Bool)
    (schemes : List String) (a : Appearance)
    (h : appearanceSettled validUri schemes a = true) :
    fixAppearanceBg validUri a = (a, false) := by
  unfold appearanceSettled at h
  simp only [Bool.and_eq_true] at h
  obtain ⟨-, hb⟩ := h
  unfold fixAppearanceBg
  rw [Bool.or_eq_true] at hb
  rcases hb with h1 | h2
  · have he : a.backgroundImagePath.getD a.inheritedBackgroundImagePath = "" := by
      simpa using h1
    simp [he]
  · by_cases hp : a.backgroundImagePath.getD a.inheritedBackgroundImagePath = ""
    · simp [hp]
    · simp [hp, h2]

/-- A settled profile is a fixed point of the media validation step. -/
theorem fixProfileMedia_of_settled (validUri : String → Bool)
    (schemes : List String) (p : Profile)
    (h : profileSettled validUri schemes p = true) :
    fixProfileMedia validUri p = (p, false, false) := by
  unfold profileSettled at h
  simp only [Bool.and_eq_true] at h
  obtain ⟨⟨hd, hu⟩, hi⟩ := h
  obtain ⟨g, nm, hid, org, cl, ic, ii, da, ua⟩ := p
  simp only at hd hu hi
  have hic :
      (if (ic.getD ii).length > 2 then
        (if validUri (ic.getD ii) then (ic, false)
         else (Option.none, true))
       else (ic, false)) = (ic, false) := by
    rw [Bool.or_eq_true] at hi
    rcases hi with h1 | h2
    · have hle : ¬((ic.getD ii).length > 2) := by
        have := of_decide_eq_true h1
        omega
      simp [hle]
    · by_cases hlen : (ic.getD ii).length > 2
      · simp [hlen, h2]
      · simp [hlen]
  cases ua with
  | none =>
    unfold fixProfileMedia
    simp only at hic ⊢
    simp [fixAppearanceBg_of_settled validUri schemes _ hd, hic]
  | some u =>
    simp only at hu
    unfold fixProfileMedia
    simp only at hic ⊢
    simp [fixAppearanceBg_of_settled validUri schemes _ hd,
      fixAppearanceBg_of_settled validUri schemes _ hu, hic]

/-- If every profile (in either list) is a fixed point of the scheme repair,
the scheme validation pass is the identity. -/
theorem validateAllSchemesExist_id (s : CascadiaSettings)
    (h : ∀ p ∈ s.allProfiles ++ s.activeProfiles,
      fixProfileSchemes s.colorSchemes p = (p, false)) :
    validateAllSchemesExist s = s := by
  have hall : ∀ p ∈ s.allProfiles, fixProfileSchemes s.colorSchemes p = (p, false) :=
    fun p hp => h p (List.mem_append_left _ hp)
  have hact : ∀ p ∈ s.activeProfiles, fixProfileSchemes s.colorSchemes p = (p, false) :=
    fun p hp => h p (List.mem_append_right _ hp)
  have hfound : s.allProfiles.any (fun p => (fixProfileSchemes s.colorSchemes p).2) = false := by
    rw [List.any_eq_false]
    intro p hp
    rw [hall p hp]
    simp
  have hm1 : s.allProfiles.map (fun p => (fixProfileSchemes s.colorSchemes p).1) =
      s.allProfiles :=
    map_eq_self_of _ _ (fun p hp => by rw [hall p hp])
  have hm2 : s.activeProfiles.map (fun p => (fixProfileSchemes s.colorSchemes p).1) =
      s.activeProfiles :=
    map_eq_self_of _ _ (fun p hp => by rw [hact p hp])
  unfold validateAllSchemesExist
  rw [hfound, hm1, hm2]
  simp

/-- If every profile (in either list) is a fixed point of the media repair,
the media validation pass is the identity. -/
theorem validateMediaResources_id (validUri : String → Bool) (s : CascadiaSettings)
    (h : ∀ p ∈ s.allProfiles ++ s.activeProfiles,
      fixProfileMedia validUri p = (p, false, false)) :
    validateMediaResources validUri s = s := by
  have hall : ∀ p ∈ s.allProfiles, fixProfileMedia validUri p = (p, false, false) :=
    fun p hp => h p (List.mem_append_left _ hp)
  have hact : ∀ p ∈ s.activeProfiles, fixProfileMedia validUri p = (p, false, false) :=
    fun p hp => h p (List.mem_append_right _ hp)
  have hbg : s.allProfiles.any (fun p => (fixProfileMedia validUri p).2.1) = false := by
    rw [List.any_eq_false]
    intro p hp
    rw [hall p hp]
    simp
  have hic : s.allProfiles.any (fun p => (fixProfileMedia validUri p).2.2) = false := by
    rw [List.any_eq_false]
    intro p hp
    rw [hall p hp]
    simp
  have hm1 : s.allProfiles.map (fun p => (fixProfileMedia validUri p).1) = s.allProfiles :=
    map_eq_self_of _ _ (fun p hp => by rw [hall p hp])
  have hm2 : s.activeProfiles.map (fun p => (fixProfileMedia validUri p).1) = s.activeProfiles :=
    map_eq_self_of _ _ (fun p hp => by rw [hact p hp])
  unfold validateMediaResources
  rw [hbg, hic, hm1, hm2]
  simp

/-- With no collected keybinding warnings the keybinding pass is the identity. -/
theorem validateKeybindings_id (s : CascadiaSettings)
    (h : s.keybindingsWarnings = []) : validateKeybindings s = s := by
  unfold validateKeybindings
  simp [h]

/-- With no invalid command scheme the command pass is the identity. -/
theorem validateColorSchemesInCommands_id (s : CascadiaSettings)
    (h : ∀ c ∈ s.commands, hasInvalidColorScheme s.colorSchemes c = false) :
    validateColorSchemesInCommands s = s := by
  unfold validateColorSchemesInCommands
  have : s.commands.any (hasInvalidColorScheme s.colorSchemes) = false := by
    rw [List.any_eq_false]
    intro c hc
    rw [h c hc]
    simp
  simp [this]

/-- The validation passes never change the scheme table, the command list or
the collected keybinding warnings. -/
theorem validateSettings_stable (validUri : String → Bool) (s : CascadiaSettings) :
    (validateSettings validUri s).colorSchemes = s.colorSchemes
    ∧ (validateSettings validUri s).commands = s.commands
    ∧ (validateSettings validUri s).keybindingsWarnings = s.keybindingsWarnings := by
  unfold validateSettings validateColorSchemesInCommands validateKeybindings
    validateMediaResources validateAllSchemesExist
  refine ⟨?_, ?_, ?_⟩ <;> (split <;> split <;> rfl)

/-- C7 (amended): re-running `_validateSettings` is the identity provided the
container collected no keybinding warnings, no command references a missing
scheme, and every profile of the once-validated container is settled (its
repaired references resolve, through inheritance, to an existing scheme and
valid media); in general the keybinding and command passes re-append their
warnings on every run, so re-validation is *not* idempotent. -/
theorem c7_amended (validUri : String → Bool) (s : CascadiaSettings)
    (hkb : s.keybindingsWarnings = [])
    (hcmd : ∀ c ∈ s.commands, hasInvalidColorScheme s.colorSchemes c = false)
    (hset : ∀ p ∈ (validateSettings validUri s).allProfiles ++
        (validateSettings validUri s).activeProfiles,
      profileSettled validUri s.colorSchemes p = true) :
    validateSettings validUri (validateSettings validUri s) =
      validateSettings validUri s := by
  obtain ⟨hcs, hcm, hkw⟩ := validateSettings_stable validUri s
  have h1 : validateAllSchemesExist (validateSettings validUri s) =
      validateSettings validUri s := by
    apply validateAllSchemesExist_id
    intro p hp
    rw [hcs]
    exact fixProfileSchemes_of_settled validUri s.colorSchemes p (hset p hp)
  have h2 : validateMediaResources validUri (validateSettings validUri s) =
      validateSettings validUri s := by
    apply validateMediaResources_id
    intro p hp
    exact fixProfileMedia_of_settled validUri s.colorSchemes p (hset p hp)
  have h3 : validateKeybindings (validateSettings validUri s) =
      validateSettings validUri s :=
    validateKeybindings_id _ (by rw [hkw, hkb])
  have h4 : validateColorSchemesInCommands (validateSettings validUri s) =
      validateSettings validUri s := by
    apply validateColorSchemesInCommands_id
    intro c hc
    rw [hcm] at hc
    rw [hcs]
    exact hcmd c hc
  show validateColorSchemesInCommands (validateKeybindings (validateMediaResources validUri
    (validateAllSchemesExist (validateSettings validUri s)))) = validateSettings validUri s
  rw [h1, h2, h3, h4]

/-- C7 (counterexample): on a container with one collected keybinding warning,
the second validation run appends the umbrella marker and the warning again —
the warning list grows, refuting idempotence. -/
theorem c7_counterexample :
    (validateSettings validUriAll (validateSettings validUriAll settingsKb)).warnings ≠
      (validateSettings validUriAll settingsKb).warnings := by decide

/-- C7 (witness): a container whose only flaw is a dangling scheme reference
(with a valid inherited fallback) is repaired by the first run and the second
run changes nothing. -/
theorem c7_witness :
    validateSettings validUriAll (validateSettings validUriAll settingsFoo) =
      validateSettings validUriAll settingsFoo :=
  c7_amended validUriAll settingsFoo rfl
    (by intro c hc; exact absurd hc (List.not_mem_nil c))
    (by decide)

/-- `find?` ignores a dropped prefix whose elements all fail the predicate. -/
theorem find?_dropWhile_eq {α : Type} (l : List α) (q pred : α → Bool)
    (h : ∀ x, q x = true → pred x = false) :
    (l.dropWhile q).find? pred = l.find? pred := by
  induction l with
  | nil => rfl
  | cons a t ih =>
    by_cases hq : q a = true
    · rw [List.dropWhile_cons_of_pos hq, ih,
        List.find?_cons_of_neg _ (by simp [h a hq])]
    · rw [List.dropWhile_cons_of_neg (by simp [hq])]

/-- Membership characterization of the stable insertion step. -/
theorem mem_insertDesc (e x : List Char × Profile)
    (l : List (List Char × Profile)) :
    x ∈ insertDesc e l ↔ x = e ∨ x ∈ l := by
  induction l with
  | nil => simp [insertDesc]
  | cons a t ih =>
    unfold insertDesc
    by_cases hc : e.1.length < a.1.length
    · rw [if_pos hc]
      simp only [List.mem_cons, ih]
      tauto
    · rw [if_neg hc]
      simp only [List.mem_cons]

/-- The insertion step keeps the list sorted by non-increasing normalized
length. -/
theorem insertDesc_pairwise (e : List Char × Profile)
    (l : List (List Char × Profile))
    (h : l.Pairwise (fun a b => b.1.length ≤ a.1.length)) :
    (insertDesc e l).Pairwise (fun a b => b.1.length ≤ a.1.length) := by
  induction l with
  | nil => simp [insertDesc]
  | cons a t ih =>
    rw [List.pairwise_cons] at h
    obtain ⟨ha, ht⟩ := h
    unfold insertDesc
    by_cases hc : e.1.length < a.1.length
    · rw [if_pos hc, List.pairwise_cons]
      constructor
      · intro b hb
        rcases (mem_insertDesc e b t).mp hb with rfl | hbt
        · omega
        · exact ha b hbt
      · exact ih ht
    · rw [if_neg hc, List.pairwise_cons]
      constructor
      · intro b hb
        rcases List.mem_cons.mp hb with rfl | hbt
        · omega
        · have := ha b hbt
          omega
      · rw [List.pairwise_cons]
        exact ⟨ha, ht⟩

/-- The sorted cache holds exactly the collected entries. -/
theorem mem_sortCacheDesc (x : List Char × Profile)
    (l : List (List Char × Profile)) : x ∈ sortCacheDesc l ↔ x ∈ l := by
  unfold sortCacheDesc
  induction l with
  | nil => simp
  | cons a t ih =>
    simp only [List.foldr_cons, mem_insertDesc, ih, List.mem_cons]

/-- The built cache is sorted by non-increasing normalized length. -/
theorem sortCacheDesc_pairwise (l : List (List Char × Profile)) :
    (sortCacheDesc l).Pairwise (fun a b => b.1.length ≤ a.1.length) := by
  unfold sortCacheDesc
  induction l with
  | nil => simp
  | cons a t ih => exact insertDesc_pairwise a _ ih

/-- On a list sorted by non-increasing length, the first entry found by the
prefix scan has maximal length among all matching entries. -/
theorem find?_max_of_sorted (l : List (List Char × Profile))
    (needle : List Char) (e : List Char × Profile)
    (hs : l.Pairwise (fun a b => b.1.length ≤ a.1.length))
    (hf : l.find? (fun x => x.1.isPrefixOf needle) = some e) :
    ∀ b ∈ l, b.1.isPrefixOf needle = true → b.1.length ≤ e.1.length := by
  induction l with
  | nil => cases hf
  | cons a t ih =>
    rw [List.pairwise_cons] at hs
    obtain ⟨ha, ht⟩ := hs
    by_cases hp : a.1.isPrefixOf needle = true
    · have hp' : (fun x : List Char × Profile => x.1.isPrefixOf needle) a = true := hp
      rw [List.find?_cons_of_pos t hp'] at hf
      cases hf
      intro b hb hbp
      rcases List.mem_cons.mp hb with rfl | hbt
      · exact Nat.le_refl _
      · exact ha b hbt
    · have hp' : ¬((fun x : List Char × Profile => x.1.isPrefixOf needle) a = true) := by
        simpa using hp
      rw [List.find?_cons_of_neg t hp'] at hf
      intro b hb hbp
      rcases List.mem_cons.mp hb with rfl | hbt
      · exact absurd hbp hp
      · exact ih ht hf b hbt hbp

/-- C1: command-line resolution over the built cache returns a profile whose
normalized command line is a prefix of the normalized request of maximal
length among all declared profiles whose normalized command line is such a
prefix (whenever any matching profile exists). -/
theorem c1_longest_prefix_match (norm : String → List Char)
    (profiles : List Profile) (cmd : String)
    (hmatch : ∃ q ∈ profiles, q.commandline ≠ "" ∧
      (norm q.commandline).isPrefixOf (norm cmd) = true) :
    ∃ p, commandLineLookup (buildCommandLinesCache norm profiles) (norm cmd) = some p
      ∧ p ∈ profiles ∧ p.commandline ≠ ""
      ∧ (norm p.commandline).isPrefixOf (norm cmd) = true
      ∧ ∀ q ∈ profiles, q.commandline ≠ "" →
          (norm q.commandline).isPrefixOf (norm cmd) = true →
          (norm q.commandline).length ≤ (norm p.commandline).length := by
  obtain ⟨q0, hq0, hq0ne, hq0pf⟩ := hmatch
  have hdrop : ∀ x : List Char × Profile,
      (decide ((norm cmd).length < x.1.length)) = true →
      x.1.isPrefixOf (norm cmd) = false := by
    intro x hx
    have hlt := of_decide_eq_true hx
    by_contra hp
    rw [Bool.not_eq_false] at hp
    have := (List.isPrefixOf_iff_prefix.mp hp).length_le
    omega
  have hlook : commandLineLookup (buildCommandLinesCache norm profiles) (norm cmd) =
      ((buildCommandLinesCache norm profiles).find?
        (fun x => x.1.isPrefixOf (norm cmd))).map (fun x => x.2) := by
    unfold commandLineLookup
    rw [find?_dropWhile_eq _ _ _ hdrop]
  have hentry : ∀ x : List Char × Profile,
      x ∈ buildCommandLinesCache norm profiles ↔
      ∃ a ∈ profiles, a.commandline ≠ "" ∧ x = (norm a.commandline, a) := by
    intro x
    unfold buildCommandLinesCache
    rw [mem_sortCacheDesc, List.mem_filterMap]
    constructor
    · rintro ⟨a, ha, hfa⟩
      by_cases hne : a.commandline = ""
      · rw [if_pos hne] at hfa
        cases hfa
      · rw [if_neg hne] at hfa
        exact ⟨a, ha, hne, (Option.some.inj hfa).symm⟩
    · rintro ⟨a, ha, hne, rfl⟩
      exact ⟨a, ha, by rw [if_neg hne]⟩
  have hq0mem : (norm q0.commandline, q0) ∈ buildCommandLinesCache norm profiles :=
    (hentry _).mpr ⟨q0, hq0, hq0ne, rfl⟩
  have hfsome : ((buildCommandLinesCache norm profiles).find?
      (fun x => x.1.isPrefixOf (norm cmd))).isSome := by
    rw [List.find?_isSome]
    exact ⟨_, hq0mem, hq0pf⟩
  obtain ⟨e, he⟩ := Option.isSome_iff_exists.mp hfsome
  have hep0 := List.find?_some he
  have hep : e.1.isPrefixOf (norm cmd) = true := hep0
  have hemem := List.mem_of_find?_eq_some he
  obtain ⟨a, ha, hane, hax⟩ := (hentry e).mp hemem
  have hmax := find?_max_of_sorted _ (norm cmd) e
    (sortCacheDesc_pairwise _) he
  refine ⟨e.2, ?_, ?_, ?_, ?_, ?_⟩
  · rw [hlook, he]
    rfl
  · rw [hax]
    exact ha
  · rw [hax]
    exact hane
  · rw [hax] at hep ⊢
    exact hep
  · intro q hq hqne hqpf
    have hqmem : (norm q.commandline, q) ∈ buildCommandLinesCache norm profiles :=
      (hentry _).mpr ⟨q, hq, hqne, rfl⟩
    have hle := hmax (norm q.commandline, q) hqmem hqpf
    rw [hax] at hle
    rw [hax]
    exact hle

/-- C1 (witness): with profiles declaring `"a.exe"` and `"a.exe -x"`, a
request normalizing to `"a.exe -x -y"` resolves to the `"a.exe -x"` profile —
never the shorter one — and the resolved profile carries the longest matching
normalized command line. -/
theorem c1_witness :
    commandLineLookup (buildCommandLinesCache normAx [profAx, profAxX])
      (normAx "a.exe -x -y") = some profAxX
    ∧ ∃ p, commandLineLookup (buildCommandLinesCache normAx [profAx, profAxX])
        (normAx "a.exe -x -y") = some p
      ∧ p ∈ [profAx, profAxX] ∧ p.commandline ≠ ""
      ∧ (normAx p.commandline).isPrefixOf (normAx "a.exe -x -y") = true
      ∧ ∀ q ∈ [profAx, profAxX], q.commandline ≠ "" →
          (normAx q.commandline).isPrefixOf (normAx "a.exe -x -y") = true →
          (normAx q.commandline).length ≤ (normAx p.commandline).length :=
  ⟨by decide,
   c1_longest_prefix_match normAx [profAx, profAxX] "a.exe -x -y"
    ⟨profAx, by decide, by decide, by decide⟩⟩

/-- Keys of a cons arena. -/
theorem akeys_cons (e : Nat × PNode) (u : Arena) :
    akeys (e :: u) = e.1 :: akeys u := rfl

/-- Keys of the empty arena. -/
theorem akeys_nil : akeys ([] : Arena) = [] := rfl

/-- A lookup that succeeds means the key is present. -/
theorem alookup_isSome_iff (i : Nat) (t : Arena) :
    (alookup i t).isSome = true ↔ i ∈ akeys t := by
  induction t with
  | nil => simp [alookup, akeys_nil]
  | cons e u ih =>
    unfold alookup
    rw [akeys_cons]
    by_cases he : e.1 = i
    · rw [if_pos he]
      simp [he]
    · rw [if_neg he]
      constructor
      · intro h
        exact List.mem_cons_of_mem _ (ih.mp h)
      · intro h
        rcases List.mem_cons.mp h with h1 | h2
        · exact absurd h1.symm he
        · exact ih.mpr h2

/-- A successful lookup exhibits a list entry. -/
theorem alookup_some_mem (i : Nat) (v : PNode) (t : Arena)
    (h : alookup i t = some v) : (i, v) ∈ t := by
  induction t with
  | nil => cases h
  | cons e u ih =>
    unfold alookup at h
    by_cases he : e.1 = i
    · rw [if_pos he] at h
      have hv : v = e.2 := (Option.some.inj h).symm
      subst hv
      subst he
      exact List.mem_cons_self _ _
    · rw [if_neg he] at h
      exact List.mem_cons_of_mem _ (ih h)

/-- Keys distribute over arena concatenation. -/
theorem akeys_append (t u : Arena) : akeys (t ++ u) = akeys t ++ akeys u :=
  List.map_append _ _ _

/-- The fold over parents preserves any invariant preserved by `cloneNode`. -/
theorem cloneFold_inv (src : Arena) (fuel : Nat) (P : Arena → Prop)
    (hf : ∀ i t, P t → P (cloneNode src fuel i t)) :
    ∀ (ps : List Nat) (t : Arena), P t →
      P (ps.foldl (fun t p => cloneNode src fuel p t) t) := by
  intro ps
  induction ps with
  | nil =>
    intro t h
    simpa using h
  | cons p ps ih =>
    intro t h
    rw [List.foldl_cons]
    exact ih _ (hf p t h)

/-- Unfolding `cloneNode` at zero fuel. -/
theorem cloneNode_zero (src : Arena) (i : Nat) (t : Arena) :
    cloneNode src 0 i t = t := rfl

/-- Unfolding `cloneNode` on an already-visited node. -/
theorem cloneNode_succ_visited (src : Arena) (fuel i : Nat) (t : Arena)
    (hv : (alookup i t).isSome = true) :
    cloneNode src (fuel + 1) i t = t := by
  simp [cloneNode, hv]

/-- Unfolding `cloneNode` on a node absent from the source arena. -/
theorem cloneNode_succ_missing (src : Arena) (fuel i : Nat) (t : Arena)
    (hv : (alookup i t).isSome = false) (hs : alookup i src = none) :
    cloneNode src (fuel + 1) i t = t := by
  simp [cloneNode, hv, hs]

/-- Unfolding `cloneNode` on an unvisited node: clone the parents, then
append the node's shallow copy. -/
theorem cloneNode_succ_new (src : Arena) (fuel i : Nat) (t : Arena) (nd : PNode)
    (hv : (alookup i t).isSome = false) (hs : alookup i src = some nd) :
    cloneNode src (fuel + 1) i t =
      (nd.parents.foldl (fun t p => cloneNode src fuel p t) t) ++ [(i, nd)] := by
  simp [cloneNode, hv, hs]

/-- The fold over parents only appends to the target arena. -/
theorem cloneFold_grows (src : Arena) (fuel : Nat)
    (hf : ∀ (i : Nat) (t : Arena), ∃ l, cloneNode src fuel i t = t ++ l) :
    ∀ (ps : List Nat) (t : Arena),
      ∃ l, ps.foldl (fun t p => cloneNode src fuel p t) t = t ++ l := by
  intro ps
  induction ps with
  | nil =>
    intro t
    exact ⟨[], by simp⟩
  | cons p ps ih =>
    intro t
    obtain ⟨l1, h1⟩ := hf p t
    obtain ⟨l2, h2⟩ := ih (cloneNode src fuel p t)
    rw [List.foldl_cons]
    exact ⟨l1 ++ l2, by rw [h2, h1, List.append_assoc]⟩

/-- `cloneNode` only appends to the target arena. -/
theorem cloneNode_grows (src : Arena) :
    ∀ (fuel i : Nat) (t : Arena), ∃ l, cloneNode src fuel i t = t ++ l := by
  intro fuel
  induction fuel with
  | zero =>
    intro i t
    exact ⟨[], by rw [cloneNode_zero, List.append_nil]⟩
  | succ fuel ih =>
    intro i t
    cases hv : (alookup i t).isSome
    · rcases hs : alookup i src with _ | nd
      · exact ⟨[], by rw [cloneNode_succ_missing src fuel i t hv hs, List.append_nil]⟩
      · obtain ⟨l, hl⟩ := cloneFold_grows src fuel ih nd.parents t
        refine ⟨l ++ [(i, nd)], ?_⟩
        rw [cloneNode_succ_new src fuel i t nd hv hs, hl, List.append_assoc]
    · exact ⟨[], by rw [cloneNode_succ_visited src fuel i t hv, List.append_nil]⟩

/-- `cloneNode` appends only verbatim copies of source nodes. -/
theorem cloneNode_entries (src : Arena) :
    ∀ (fuel i : Nat) (t : Arena),
      EntriesFrom src t → EntriesFrom src (cloneNode src fuel i t) := by
  intro fuel
  induction fuel with
  | zero =>
    intro i t h
    rw [cloneNode_zero]
    exact h
  | succ fuel ih =>
    intro i t h
    cases hv : (alookup i t).isSome
    · rcases hs : alookup i src with _ | nd
      · rw [cloneNode_succ_missing src fuel i t hv hs]
        exact h
      · rw [cloneNode_succ_new src fuel i t nd hv hs]
        have hfold := cloneFold_inv src fuel (EntriesFrom src) ih nd.parents t h
        intro e he
        rcases List.mem_append.mp he with he1 | he2
        · exact hfold e he1
        · have : e = (i, nd) := by simpa using he2
          subst this
          exact hs
    · rw [cloneNode_succ_visited src fuel i t hv]
      exact h

/-- Every key added by the fold over a parent list is reachable from one of
those parents. -/
theorem cloneFold_keys_reach (src : Arena) (fuel : Nat)
    (hf : ∀ (i : Nat) (t : Arena) (j : Nat),
      j ∈ akeys (cloneNode src fuel i t) → j ∈ akeys t ∨ Reaches src i j) :
    ∀ (ps : List Nat) (t : Arena) (j : Nat),
      j ∈ akeys (ps.foldl (fun t p => cloneNode src fuel p t) t) →
      j ∈ akeys t ∨ ∃ p ∈ ps, Reaches src p j := by
  intro ps
  induction ps with
  | nil =>
    intro t j h
    exact Or.inl (by simpa using h)
  | cons p ps ih =>
    intro t j h
    rw [List.foldl_cons] at h
    rcases ih _ j h with h1 | ⟨q, hq, hr⟩
    · rcases hf p t j h1 with h2 | h2
      · exact Or.inl h2
      · exact Or.inr ⟨p, List.mem_cons_self _ _, h2⟩
    · exact Or.inr ⟨q, List.mem_cons_of_mem _ hq, hr⟩

/-- Every key added by `cloneNode` is reachable from the visited root. -/
theorem cloneNode_keys_reach (src : Arena) :
    ∀ (fuel i : Nat) (t : Arena) (j : Nat),
      j ∈ akeys (cloneNode src fuel i t) → j ∈ akeys t ∨ Reaches src i j := by
  intro fuel
  induction fuel with
  | zero =>
    intro i t j h
    rw [cloneNode_zero] at h
    exact Or.inl h
  | succ fuel ih =>
    intro i t j h
    cases hv : (alookup i t).isSome
    · rcases hs : alookup i src with _ | nd
      · rw [cloneNode_succ_missing src fuel i t hv hs] at h
        exact Or.inl h
      · rw [cloneNode_succ_new src fuel i t nd hv hs] at h
        rw [akeys_append] at h
        rcases List.mem_append.mp h with h1 | h2
        · rcases cloneFold_keys_reach src fuel ih nd.parents t j h1 with hA | ⟨p, hp, hr⟩
          · exact Or.inl hA
          · exact Or.inr (Relation.ReflTransGen.head ⟨nd, hs, hp⟩ hr)
        · have hji : j = i := by simpa [akeys] using h2
          subst hji
          exact Or.inr Relation.ReflTransGen.refl
    · rw [cloneNode_succ_visited src fuel i t hv] at h
      exact Or.inl h

/-- Along parent edges the rank strictly decreases, so reachability implies a
rank drop (or equality of endpoints). -/
theorem reaches_rank (src : Arena) (rank : Nat → Nat)
    (hrank : ∀ e ∈ src, ∀ p ∈ e.2.parents, rank p < rank e.1)
    {i j : Nat} (h : Reaches src i j) : j = i ∨ rank j < rank i := by
  induction h with
  | refl => exact Or.inl rfl
  | tail hab hbc ih =>
    obtain ⟨nd, hlk, hp⟩ := hbc
    have hstep := hrank _ (alookup_some_mem _ _ _ hlk) _ hp
    rcases ih with rfl | hlt
    · exact Or.inr hstep
    · exact Or.inr (Nat.lt_trans hstep hlt)

/-- On an acyclic graph (witnessed by `rank`), `cloneNode` never duplicates a
key. -/
theorem cloneNode_nodup (src : Arena) (rank : Nat → Nat)
    (hrank : ∀ e ∈ src, ∀ p ∈ e.2.parents, rank p < rank e.1) :
    ∀ (fuel i : Nat) (t : Arena),
      (akeys t).Nodup → (akeys (cloneNode src fuel i t)).Nodup := by
  intro fuel
  induction fuel with
  | zero =>
    intro i t h
    rw [cloneNode_zero]
    exact h
  | succ fuel ih =>
    intro i t h
    cases hv : (alookup i t).isSome
    · rcases hs : alookup i src with _ | nd
      · rw [cloneNode_succ_missing src fuel i t hv hs]
        exact h
      · rw [cloneNode_succ_new src fuel i t nd hv hs]
        have hnd := cloneFold_inv src fuel (fun t => (akeys t).Nodup) ih nd.parents t h
        have hnotin : i ∉ akeys (nd.parents.foldl (fun t p => cloneNode src fuel p t) t) := by
          intro hin
          rcases cloneFold_keys_reach src fuel (cloneNode_keys_reach src fuel)
              nd.parents t i hin with h1 | ⟨p, hp, hr⟩
          · rw [← alookup_isSome_iff] at h1
            rw [hv] at h1
            cases h1
          · have hstep : rank p < rank i := hrank _ (alookup_some_mem _ _ _ hs) _ hp
            rcases reaches_rank src rank hrank hr with rfl | hlt
            · omega
            · omega
        have hsingle : akeys [(i, nd)] = [i] := rfl
        rw [akeys_append, hsingle]
        apply List.Nodup.append hnd (List.nodup_singleton i)
        rw [List.disjoint_singleton]
        exact hnotin
    · rw [cloneNode_succ_visited src fuel i t hv]
      exact h

/-- The fold over a list of roots whose ranks are below the fuel clones every
root and keeps the target parent-closed. -/
theorem cloneFold_complete (src : Arena) (rank : Nat → Nat) (fuel : Nat)
    (hf : ∀ (i : Nat) (t : Arena), rank i < fuel → i ∈ akeys src → ClosedT t →
      i ∈ akeys (cloneNode src fuel i t) ∧ ClosedT (cloneNode src fuel i t)) :
    ∀ (ps : List Nat) (t : Arena),
      (∀ p ∈ ps, rank p < fuel ∧ p ∈ akeys src) → ClosedT t →
      ClosedT (ps.foldl (fun t p => cloneNode src fuel p t) t) ∧
      ∀ p ∈ ps, p ∈ akeys (ps.foldl (fun t p => cloneNode src fuel p t) t) := by
  intro ps
  induction ps with
  | nil =>
    intro t h hcl
    refine ⟨by simpa using hcl, ?_⟩
    intro p hp
    exact absurd hp (List.not_mem_nil p)
  | cons p ps ih =>
    intro t h hcl
    obtain ⟨hp1, hp2⟩ := h p (List.mem_cons_self _ _)
    obtain ⟨hpmem, hpcl⟩ := hf p t hp1 hp2 hcl
    obtain ⟨hcl', hmem'⟩ := ih (cloneNode src fuel p t)
      (fun q hq => h q (List.mem_cons_of_mem _ hq)) hpcl
    rw [List.foldl_cons]
    refine ⟨hcl', ?_⟩
    intro q hq
    rcases List.mem_cons.mp hq with rfl | hq2
    · obtain ⟨l, hl⟩ := cloneFold_grows src fuel (cloneNode_grows src fuel) ps
        (cloneNode src fuel q t)
      rw [hl, akeys_append]
      exact List.mem_append_left _ hpmem
    · exact hmem' q hq2

/-- With enough fuel (more than the root's rank), `cloneNode` clones the root
and keeps the target parent-closed. -/
theorem cloneNode_complete (src : Arena) (rank : Nat → Nat)
    (hrank : ∀ e ∈ src, ∀ p ∈ e.2.parents, rank p < rank e.1)
    (hclosed : ∀ e ∈ src, ∀ p ∈ e.2.parents, p ∈ akeys src) :
    ∀ (fuel i : Nat) (t : Arena), rank i < fuel → i ∈ akeys src → ClosedT t →
      i ∈ akeys (cloneNode src fuel i t) ∧ ClosedT (cloneNode src fuel i t) := by
  intro fuel
  induction fuel with
  | zero =>
    intro i t hfu
    exact absurd hfu (Nat.not_lt_zero _)
  | succ fuel ih =>
    intro i t hfu hik hcl
    cases hv : (alookup i t).isSome
    · rcases hs : alookup i src with _ | nd
      · rw [← alookup_isSome_iff, hs] at hik
        cases hik
      · rw [cloneNode_succ_new src fuel i t nd hv hs]
        have hp_all : ∀ p ∈ nd.parents, rank p < fuel ∧ p ∈ akeys src := by
          intro p hp
          have h1 : rank p < rank i := hrank _ (alookup_some_mem _ _ _ hs) _ hp
          exact ⟨by omega, hclosed _ (alookup_some_mem _ _ _ hs) _ hp⟩
        obtain ⟨hclf, hmemf⟩ := cloneFold_complete src rank fuel ih nd.parents t hp_all hcl
        have hsingle : akeys [(i, nd)] = [i] := rfl
        constructor
        · rw [akeys_append, hsingle]
          exact List.mem_append_right _ (List.mem_singleton_self i)
        · intro e he
          rcases List.mem_append.mp he with h1 | h2
          · intro p hp
            rw [akeys_append]
            exact List.mem_append_left _ (hclf e h1 p hp)
          · have : e = (i, nd) := by simpa using h2
            subst this
            intro p hp
            rw [akeys_append]
            exact List.mem_append_left _ (hmemf p hp)
    · rw [cloneNode_succ_visited src fuel i t hv]
      exact ⟨(alookup_isSome_iff _ _).mp hv, hcl⟩

/-- In a parent-closed target that mirrors the source, everything reachable
from a present key is present. -/
theorem reach_in_keys (src t : Arena) (hent : EntriesFrom src t)
    (hcl : ClosedT t) {r j : Nat} (hreach : Reaches src r j)
    (hr : r ∈ akeys t) : j ∈ akeys t := by
  induction hreach with
  | refl => exact hr
  | tail hab hbc ih =>
    obtain ⟨nd, hlk, hp⟩ := hbc
    have hsome : (alookup _ t).isSome = true := (alookup_isSome_iff _ _).mpr ih
    obtain ⟨nd', hlk'⟩ := Option.isSome_iff_exists.mp hsome
    have hmem := alookup_some_mem _ _ _ hlk'
    have hsrc := hent _ hmem
    have hnd : nd' = nd := by
      have := hsrc.symm.trans hlk
      exact Option.some.inj this
    subst hnd
    exact hcl _ hmem _ hp

/-- C5 (spec-modelled: Profile internals and `Profile::CopyInheritanceGraph`
are outside the reviewed sources; the clone is §4.1's memoized traversal over
an identifier arena).  For every settings graph that is acyclic (witnessed by
a rank function), parent-closed and whose roots exist, `Copy` produces a
target arena with no duplicated node (each reachable node cloned exactly
once), every cloned entry the verbatim copy of the source node with the same
identifier and parent list (so the parent-edge shape and node count of the
reachable subgraph are preserved — the identity on identifiers is a graph
isomorphism), whose keys are exactly the nodes reachable from the base layer
and the declared profiles (unreachable nodes are never cloned), and the copy
carries equal warning list, load error, and error message; the copy is a
fresh arena, so no node identity is shared with the source. -/
theorem c5_copy_inheritance_graph (g : GraphSettings) (rank : Nat → Nat)
    (hrank : ∀ e ∈ g.arena, ∀ p ∈ e.2.parents, rank p < rank e.1)
    (hrankbound : ∀ i ∈ akeys g.arena, rank i < g.arena.length)
    (hclosed : ∀ e ∈ g.arena, ∀ p ∈ e.2.parents, p ∈ akeys g.arena)
    (hbase : g.baseLayerId ∈ akeys g.arena)
    (hprof : ∀ i ∈ g.profileIds, i ∈ akeys g.arena) :
    (akeys (copyGraphSettings g).arena).Nodup
    ∧ EntriesFrom g.arena (copyGraphSettings g).arena
    ∧ (∀ j, j ∈ akeys (copyGraphSettings g).arena ↔
        ∃ r, (r = g.baseLayerId ∨ r ∈ g.profileIds) ∧ Reaches g.arena r j)
    ∧ (copyGraphSettings g).warnings = g.warnings
    ∧ (copyGraphSettings g).loadError = g.loadError
    ∧ (copyGraphSettings g).deserializationErrorMessage =
        g.deserializationErrorMessage := by
  have hrank' : ∀ i nd, alookup i g.arena = some nd →
      ∀ p ∈ nd.parents, rank p < rank i :=
    fun i nd h p hp => hrank _ (alookup_some_mem _ _ _ h) _ hp
  have harena : (copyGraphSettings g).arena =
      g.profileIds.foldl (fun t p => cloneNode g.arena g.arena.length p t)
        (cloneNode g.arena g.arena.length g.baseLayerId []) := rfl
  have hclnil : ClosedT ([] : Arena) := by
    intro e he
    exact absurd he (List.not_mem_nil e)
  have hbase0 := cloneNode_complete g.arena rank hrank hclosed g.arena.length
    g.baseLayerId [] (hrankbound _ hbase) hbase hclnil
  have hroots : ∀ p ∈ g.profileIds, rank p < g.arena.length ∧ p ∈ akeys g.arena :=
    fun p hp => ⟨hrankbound _ (hprof p hp), hprof p hp⟩
  have hfinal := cloneFold_complete g.arena rank g.arena.length
    (cloneNode_complete g.arena rank hrank hclosed g.arena.length)
    g.profileIds _ hroots hbase0.2
  have hent : EntriesFrom g.arena (copyGraphSettings g).arena := by
    rw [harena]
    exact cloneFold_inv g.arena g.arena.length (EntriesFrom g.arena)
      (cloneNode_entries g.arena g.arena.length) g.profileIds _
      (cloneNode_entries g.arena g.arena.length g.baseLayerId []
        (fun e he => absurd he (List.not_mem_nil e)))
  refine ⟨?_, hent, ?_, rfl, rfl, rfl⟩
  · rw [harena]
    exact cloneFold_inv g.arena g.arena.length (fun t => (akeys t).Nodup)
      (cloneNode_nodup g.arena rank hrank g.arena.length) g.profileIds _
      (cloneNode_nodup g.arena rank hrank g.arena.length g.baseLayerId []
        (by simp [akeys]))
  · intro j
    constructor
    · intro hj
      rw [harena] at hj
      rcases cloneFold_keys_reach g.arena g.arena.length
          (cloneNode_keys_reach g.arena g.arena.length) g.profileIds _ j hj with
        h1 | ⟨p, hp, hr⟩
      · rcases cloneNode_keys_reach g.arena g.arena.length g.baseLayerId [] j h1 with
          h2 | h2
        · exact absurd h2 (by simp [akeys])
        · exact ⟨g.baseLayerId, Or.inl rfl, h2⟩
      · exact ⟨p, Or.inr hp, hr⟩
    · rintro ⟨r, hror, hreach⟩
      have hrmem : r ∈ akeys (copyGraphSettings g).arena := by
        rcases hror with rfl | hrp
        · obtain ⟨l, hl⟩ := cloneFold_grows g.arena g.arena.length
            (cloneNode_grows g.arena g.arena.length) g.profileIds
            (cloneNode g.arena g.arena.length g.baseLayerId [])
          rw [harena, hl, akeys_append]
          exact List.mem_append_left _ hbase0.1
        · rw [harena]
          exact hfinal.2 r hrp
      have hclF : ClosedT (copyGraphSettings g).arena := by
        rw [harena]
        exact hfinal.1
      exact reach_in_keys g.arena _ hent hclF hreach hrmem

/-- C5 (witness): on the diamond graph with rank = identity, the copy has
no duplicated node and mirrors the source entries. -/
theorem c5_witness :
    (akeys (copyGraphSettings diamondGraph).arena).Nodup
    ∧ EntriesFrom diamondGraph.arena (copyGraphSettings diamondGraph).arena
    ∧ (copyGraphSettings diamondGraph).warnings = diamondGraph.warnings :=
  have h := c5_copy_inheritance_graph diamondGraph (fun i => i)
    (by decide) (by decide) (by decide) (by decide) (by decide)
  ⟨h.1, h.2.1, h.2.2.2.1⟩

end TerminalSettings
